import Mathlib

/-!
Shallow embedding of the transaction core of `nibe_serial.py` (class
`NibeSerial`, methods `handle_frame` and `_decode_raw_data`).

External collaborators (the `construct`-based Frame Codec `Response.parse`,
`ReadRequest.build`, `WriteRequest.build`, and the `nibe` library's
`HeatPump` register descriptors' `raw_value` setter/getter) are parameters
of the embedding, gathered in the `Env` structure, following the collaborator
contracts of the specification (section 6).  Everything reachable from
`handle_frame` in the repository source is translated here.

State threading is explicit: `handle_frame` maps a `State` and a frame
(`List Nat` of byte values) to a new `State` plus an `Out` record collecting
the calls to the `respond`, `on_res` and `on_data` callbacks, the
`task_done` acknowledgements and the log events, in order.  An uncaught
Python exception (only possible at the `payload[0]` inspection, which
precedes the `try` block) is the `Except.error` case of the result.
-/

namespace NibeSerial

/-- Domain value of a register after decoding: `Union[int, float, str]` in
the source.  Float values are carried opaquely by the core, so they are
represented exactly as scaled decimals. -/
inductive Value where
  | int (n : Int)
  | str (s : String)
  | dec (mantissa : Int) (exp10 : Nat)
  deriving DecidableEq

/-- Register descriptor as the core uses it: a `nibe` coil.  `size` is the
declared raw width in bytes (external descriptor information, used by the
`raw_value` setter to raise a too-short `StreamError`).  `value` is the
mutable value slot of the (copied) coil object. -/
structure Coil where
  name : String
  address : Nat
  size : Nat
  value : Option Value
  deriving DecidableEq

/-- One request from the queue: `{"name": ..., "value"?: ...}`. -/
structure Req where
  name : String
  value : Option Value
  deriving DecidableEq

/-- The active transaction `self._op = {"coil": ..., "pending": ...}`. -/
structure Op where
  coil : Coil
  pending : Bool
  deriving DecidableEq

/-- Mutable state of a `NibeSerial` object: the optional active operation,
the request queue (front of the list is popped first), and the heat-pump
register directory (never reassigned by the source; kept in the state so
that its preservation is a statable property). -/
structure State where
  op : Option Op
  req_q : List Req
  heatpump : List Coil
  deriving DecidableEq

/-- One `(coil_address, value)` entry of a parsed frame's data section. -/
structure DataEntry where
  coil_address : Nat
  value : List Nat
  deriving DecidableEq

/-- Parsed command of an inbound frame, with the data fields the core
reads from it. -/
inductive Cmd where
  | MODBUS_READ_REQ
  | MODBUS_WRITE_REQ
  | MODBUS_READ_RESP (data : DataEntry)
  | MODBUS_WRITE_RESP (result : Bool)
  | MODBUS_DATA_MSG (data : List DataEntry)
  | other
  deriving DecidableEq

/-- Parsed envelope `Response.parse(payload).fields.value`: destination
address name and command. -/
structure Envelope where
  address : String
  cmd : Cmd
  deriving DecidableEq

/-- Python exceptions that can be raised inside the `try` block of
`handle_frame` and are caught by its `except Exception` clause. -/
inductive PyErr where
  | parseErr
  | nameNotFound (name : String)
  | addrNotFound (address : Nat)
  | streamErr
  | assertionErr
  | stopIter
  | encodeErr
  | decodeErr
  deriving DecidableEq

/-- Python exceptions that escape `handle_frame` (raised before the `try`
block): only the `payload[0]` index error on an empty frame. -/
inductive RTErr where
  | indexErr
  deriving DecidableEq

/-- Log events the core emits: the resend warning (line 240/262), the
write-result info line (line 282), and the catch-all warning logging the
exception together with the offending (control-byte-stripped) bytes
(line 308). -/
inductive LogEvent where
  | resendWarn
  | writeInfo (ok : Bool)
  | caughtWarn (payload : List Nat) (e : PyErr)
  deriving DecidableEq

/-- Observable effects of one `handle_frame` call, in order: bytes passed to
`respond`, `(name, value)` pairs passed to `on_res`, batches passed to
`on_data`, number of `task_done` acknowledgements, log events. -/
structure Out where
  responses : List (List Nat)
  resCalls : List (String × Value)
  dataCalls : List (List (String × Value))
  taskDones : Nat
  logs : List LogEvent
  deriving DecidableEq

/-- External collaborators, per the contracts of spec section 6: the frame
codec's parser (`none` = parse exception) and request builders, the
register decode function applied once enough bytes are present (`none` =
non-StreamError decode exception), and the `raw_value` getter used by
`WriteRequest.build` (`none` = encode exception). -/
structure Env where
  parse : List Nat → Option Envelope
  decodeFun : Coil → List Nat → Option Value
  rawValue : Coil → Option (List Nat)
  buildRead : Nat → List Nat
  buildWrite : Nat → List Nat → List Nat

/-- Directory lookup `self._heatpump.get_coil_by_name(name)`. -/
def get_coil_by_name (hp : List Coil) (n : String) : Option Coil :=
  hp.find? (fun c => c.name == n)

/-- Directory lookup `self._heatpump.get_coil_by_address(address)`. -/
def get_coil_by_address (hp : List Coil) (a : Nat) : Option Coil :=
  hp.find? (fun c => c.address == a)

/-- Source lines 310-314 (`_decode_raw_data`): look the coil up by address,
`copy` it, assign `raw_value` on the copy (external setter: `StreamError`
when fewer bytes than the declared width, otherwise decode), and return the
copied coil's name and decoded value.  The directory list is read-only
here, mirroring the `copy` before mutation. -/
def decode_raw_data (env : Env) (hp : List Coil) (address : Nat)
    (value : List Nat) : Except PyErr (String × Value) :=
  match get_coil_by_address hp address with
  | none => .error (.addrNotFound address)
  | some c =>
    if value.length < c.size then .error .streamErr
    else
      match env.decodeFun c value with
      | none => .error .decodeErr
      | some v => .ok (c.name, v)

/-- Python dict assignment `data[k] = v`: replace in place when the key is
present, append otherwise. -/
def dictInsert (m : List (String × Value)) (k : String) (v : Value) :
    List (String × Value) :=
  if m.any (fun p => p.fst == k) then
    m.map (fun p => if p.fst == k then (k, v) else p)
  else m ++ [(k, v)]

/-- Source lines 287-302: the `for d in di` loop over the data-message
entries.  Sentinel addresses (0xFFFF) are skipped; a too-short slice
(`StreamError`) consumes the next entry via `next(di)` (`StopIteration`
when the current entry was the last one — the single-entry pattern below),
asserts address adjacency, and decodes the concatenated bytes against the
first address; any other error, and any error raised inside the
`except StreamError` handler, aborts the whole message.  The cases for one
and for at least two remaining entries are spelled out separately so that
each loop step is a plain structural equation. -/
def decodeEntries (env : Env) (hp : List Coil) :
    List DataEntry → List (String × Value) → Except PyErr (List (String × Value))
  | [], acc => .ok acc
  | [d], acc =>
    if d.coil_address = 0xFFFF then .ok acc
    else
      match decode_raw_data env hp d.coil_address d.value with
      | .ok (k, v) => .ok (dictInsert acc k v)
      | .error .streamErr => .error .stopIter
      | .error e => .error e
  | d :: d2 :: rest2, acc =>
    if d.coil_address = 0xFFFF then decodeEntries env hp (d2 :: rest2) acc
    else
      match decode_raw_data env hp d.coil_address d.value with
      | .ok (k, v) => decodeEntries env hp (d2 :: rest2) (dictInsert acc k v)
      | .error .streamErr =>
        if d2.coil_address = d.coil_address + 1 then
          match decode_raw_data env hp d.coil_address (d.value ++ d2.value) with
          | .ok (k, v) => decodeEntries env hp rest2 (dictInsert acc k v)
          | .error e => .error e
        else .error .assertionErr
      | .error e => .error e

/-- Source lines 213-218, operation admission: when `self._op == None` and
the queue is non-empty, pop the front request (the pop happens before the
directory lookup, so a lookup miss still consumes the request), copy the
coil found by name, assign the request's value on the copy when present,
and install the new operation with `pending = False`. -/
def start_op (s : State) : State × Option PyErr :=
  match s.op, s.req_q with
  | none, r :: tl =>
    match get_coil_by_name s.heatpump r.name with
    | none => ({ s with req_q := tl }, some (.nameNotFound r.name))
    | some c =>
      let coil := match r.value with
        | some v => { c with value := some v }
        | none => c
      ({ s with req_q := tl, op := some { coil := coil, pending := false } }, none)
  | _, _ => (s, none)

/-- Source lines 220-272, the poll-response decision: a read poll with an
active valueless operation emits a read request, a write poll with an
active valued operation emits a write request (building it reads
`raw_value`, whose encoder may raise before any state change), anything
else emits a plain ACK byte.  Sending a request logs a resend warning when
`pending` was already true and otherwise sets `pending`.  Returns the new
state, the `respond` calls, the log events, and a possible exception. -/
def poll_respond (env : Env) (cmd : Cmd) (s : State) :
    State × List (List Nat) × List LogEvent × Option PyErr :=
  match s.op with
  | some o =>
    if cmd = .MODBUS_READ_REQ ∨ cmd = .MODBUS_WRITE_REQ then
      if cmd = .MODBUS_READ_REQ ∧ o.coil.value = none then
        let m := env.buildRead o.coil.address
        if o.pending then (s, [m], [.resendWarn], none)
        else ({ s with op := some { o with pending := true } }, [m], [], none)
      else if cmd = .MODBUS_WRITE_REQ ∧ o.coil.value ≠ none then
        match env.rawValue o.coil with
        | none => (s, [], [], some .encodeErr)
        | some raw =>
          let m := env.buildWrite o.coil.address raw
          if o.pending then (s, [m], [.resendWarn], none)
          else ({ s with op := some { o with pending := true } }, [m], [], none)
      else (s, [[0x06]], [], none)
    else (s, [[0x06]], [], none)
  | none => (s, [[0x06]], [], none)

/-- Source lines 274-305, the second inspection of the command: a read
response is decoded and forwarded to `on_res`, a write response logs its
result flag, a data message runs the entry loop and calls `on_data` when at
least one entry decoded.  No state is mutated here.  Returns the `on_res`
calls, the `on_data` batches, the log events, and a possible exception. -/
def content (env : Env) (cmd : Cmd) (hp : List Coil) :
    List (String × Value) × List (List (String × Value)) × List LogEvent × Option PyErr :=
  match cmd with
  | .MODBUS_READ_RESP d =>
    match decode_raw_data env hp d.coil_address d.value with
    | .ok kv => ([kv], [], [], none)
    | .error e => ([], [], [], some e)
  | .MODBUS_WRITE_RESP b => ([], [], [.writeInfo b], none)
  | .MODBUS_DATA_MSG entries =>
    match decodeEntries env hp entries [] with
    | .ok data => if 1 ≤ data.length then ([], [data], [], none) else ([], [], [], none)
    | .error e => ([], [], [], some e)
  | _ => ([], [], [], none)

/-- Source lines 209-305, the body of the `try` block on a non-empty
(stripped) payload: parse the frame, and when it is addressed to MODBUS40
run admission, the poll-response decision and the content inspection in
order, stopping at the first exception; a frame for another address is
ignored entirely.  Effects already performed before an exception persist. -/
def handle_body (env : Env) (s : State) (p : List Nat) :
    State × Out × Option PyErr :=
  match env.parse p with
  | none => (s, ⟨[], [], [], 0, []⟩, some .parseErr)
  | some e =>
    if e.address = "MODBUS40" then
      match start_op s with
      | (s1, some er) => (s1, ⟨[], [], [], 0, []⟩, some er)
      | (s1, none) =>
        match poll_respond env e.cmd s1 with
        | (s2, resps, logs1, some er) => (s2, ⟨resps, [], [], 0, logs1⟩, some er)
        | (s2, resps, logs1, none) =>
          match content env e.cmd s2.heatpump with
          | (resC, dataC, logs2, er3) =>
            (s2, ⟨resps, resC, dataC, 0, logs1 ++ logs2⟩, er3)
    else (s, ⟨[], [], [], 0, []⟩, none)

/-- Source lines 198-206, the control-byte preamble, given the first byte
and the remaining bytes: an ACK (0x06) with an active pending operation
clears the operation and acknowledges `task_done` once; a NAK (0x15) with
an active pending operation clears `pending`; a stray ACK/NAK has no state
effect; either is stripped from the payload.  A non-control first byte
leaves payload and state untouched. -/
def strip_ctrl (s : State) (b : Nat) (rest : List Nat) :
    State × List Nat × Nat :=
  if b = 0x06 ∨ b = 0x15 then
    match s.op with
    | some o =>
      if o.pending then
        if b = 0x06 then ({ s with op := none }, rest, 1)
        else ({ s with op := some { o with pending := false } }, rest, 0)
      else (s, rest, 0)
    | none => (s, rest, 0)
  else (s, b :: rest, 0)

/-- Source lines 208 and 307-308: when bytes remain after the preamble, run
the `try` body; a caught exception is logged as a warning together with the
stripped payload's bytes.  `td` is the number of `task_done` calls made by
the preamble (the body makes none). -/
def after_ctrl (env : Env) (s : State) (p : List Nat) (td : Nat) :
    State × Out :=
  if p = [] then (s, ⟨[], [], [], td, []⟩)
  else
    match handle_body env s p with
    | (s1, o, none) => (s1, { o with taskDones := td })
    | (s1, o, some e) =>
      (s1, { o with taskDones := td, logs := o.logs ++ [.caughtWarn p e] })

/-- Source lines 197-308, `handle_frame`: inspect `payload[0]` (raising an
index error on an empty frame, before the `try` block), run the
control-byte preamble, then the guarded body. -/
def handle_frame (env : Env) (s : State) (payload : List Nat) :
    Except RTErr (State × Out) :=
  match payload with
  | [] => .error .indexErr
  | b :: rest =>
    match strip_ctrl s b rest with
    | (s1, p1, td) => .ok (after_ctrl env s1 p1 td)

/-- Number of simultaneously existing operations: `self._op` is a single
optional field, so this is 0 or 1. -/
def opCount (s : State) : Nat :=
  match s.op with
  | some _ => 1
  | none => 0

/-! Concrete sample instances, used to exercise the embedding on closed
inputs. -/

/-- Sample narrow register (2 raw bytes). -/
def coilA : Coil := { name := "alpha", address := 100, size := 2, value := none }

/-- Sample wide register (4 raw bytes, transmitted as two slots). -/
def coilW : Coil := { name := "wide", address := 200, size := 4, value := none }

/-- Sample register directory. -/
def sampleHp : List Coil := [coilA, coilW]

/-- Sample collaborator instance: a handful of fixed frames for the parser,
a deterministic decode function honouring the width contract, and simple
request builders. -/
def sampleEnv : Env :=
  { parse := fun p =>
      match p with
      | [1] => some ⟨"MODBUS40", .MODBUS_READ_REQ⟩
      | [2] => some ⟨"MODBUS40", .MODBUS_WRITE_REQ⟩
      | [3] => some ⟨"MODBUS40", .MODBUS_READ_RESP ⟨999, [0, 0]⟩⟩
      | [4] => some ⟨"MODBUS40", .MODBUS_DATA_MSG
          [⟨0xFFFF, [0, 0]⟩, ⟨100, [7, 0]⟩, ⟨200, [1, 2]⟩, ⟨201, [3, 4]⟩]⟩
      | [5] => some ⟨"RMU40", .MODBUS_READ_REQ⟩
      | [7] => some ⟨"MODBUS40", .MODBUS_DATA_MSG [⟨100, [7, 0]⟩, ⟨200, [1, 2]⟩]⟩
      | [8] => some ⟨"MODBUS40", .MODBUS_DATA_MSG [⟨200, [1, 2]⟩, ⟨100, [7, 0]⟩]⟩
      | _ => none
    decodeFun := fun c bs => some (.int (c.address * 100 + bs.length))
    rawValue := fun c =>
      match c.value with
      | some _ => some [9, 9]
      | none => none
    buildRead := fun a => [0xC0, 0x69, a]
    buildWrite := fun a raw => [0xC0, 0x6B, a] ++ raw }

/-- Sample idle state: no operation, empty queue. -/
def st0 : State := { op := none, req_q := [], heatpump := sampleHp }

/-- Sample state with a pending read operation on `coilA`. -/
def stR : State := { op := some { coil := coilA, pending := true }, req_q := [], heatpump := sampleHp }

/-- Sample state with a pending write operation on `coilA`. -/
def stW : State :=
  { op := some { coil := { coilA with value := some (.int 5) }, pending := true },
    req_q := [], heatpump := sampleHp }

/-! Structural helper lemmas about the phases of `handle_frame`. -/

theorem strip_ctrl_heatpump (s : State) (b : Nat) (rest : List Nat) :
    (strip_ctrl s b rest).1.heatpump = s.heatpump := by
  unfold strip_ctrl
  (repeat' split) <;> rfl

theorem strip_ctrl_req_q (s : State) (b : Nat) (rest : List Nat) :
    (strip_ctrl s b rest).1.req_q = s.req_q := by
  unfold strip_ctrl
  (repeat' split) <;> rfl

theorem start_op_heatpump (s : State) :
    (start_op s).1.heatpump = s.heatpump := by
  unfold start_op
  (repeat' split) <;> rfl

theorem start_op_op_some (s : State) (o : Op) (h : s.op = some o) :
    start_op s = (s, none) := by
  unfold start_op
  rw [h]

theorem start_op_q_nil (s : State) (h : s.req_q = []) :
    start_op s = (s, none) := by
  unfold start_op
  rw [h]
  rcases hop : s.op with _ | o <;> rfl

theorem start_op_pop (s : State) (r : Req) (tl : List Req)
    (hop : s.op = none) (hq : s.req_q = r :: tl) :
    (start_op s).1.req_q = tl := by
  unfold start_op
  simp only [hop, hq]
  (repeat' split) <;> rfl

theorem start_op_queue (s : State) :
    (start_op s).1.req_q = s.req_q ∨
      (s.op = none ∧ ∃ r tl, s.req_q = r :: tl ∧ (start_op s).1.req_q = tl) := by
  rcases hop : s.op with _ | o
  · rcases hq : s.req_q with _ | ⟨r, tl⟩
    · left
      rw [start_op_q_nil s hq]
      exact hq
    · right
      exact ⟨rfl, r, tl, rfl, start_op_pop s r tl hop hq⟩
  · left
    rw [start_op_op_some s o hop]

theorem poll_respond_heatpump (env : Env) (cmd : Cmd) (s : State) :
    (poll_respond env cmd s).1.heatpump = s.heatpump := by
  unfold poll_respond
  (repeat' split) <;> rfl

theorem poll_respond_req_q (env : Env) (cmd : Cmd) (s : State) :
    (poll_respond env cmd s).1.req_q = s.req_q := by
  unfold poll_respond
  (repeat' split) <;> rfl

theorem handle_body_heatpump (env : Env) (s : State) (p : List Nat) :
    (handle_body env s p).1.heatpump = s.heatpump := by
  unfold handle_body
  rcases hp : env.parse p with _ | e
  · rfl
  · by_cases ha : e.address = "MODBUS40"
    · simp only [ha, if_true]
      rcases hso : start_op s with ⟨s1, er⟩
      have h1 : s1.heatpump = s.heatpump := by
        have := start_op_heatpump s
        rw [hso] at this
        exact this
      rcases er with _ | er
      · rcases hpr : poll_respond env e.cmd s1 with ⟨s2, resps, logs1, er2⟩
        have h2 : s2.heatpump = s1.heatpump := by
          have := poll_respond_heatpump env e.cmd s1
          rw [hpr] at this
          exact this
        rcases er2 with _ | er2
        · rcases hc : content env e.cmd s2.heatpump with ⟨resC, dataC, logs2, er3⟩
          simp only [hpr, hc]
          rw [h2, h1]
        · simp only [hpr]
          rw [h2, h1]
      · simp only []
        exact h1
    · simp only [ha, if_false]

theorem handle_body_taskDones (env : Env) (s : State) (p : List Nat) :
    (handle_body env s p).2.1.taskDones = 0 := by
  unfold handle_body
  (repeat' split) <;> rfl

theorem after_ctrl_taskDones (env : Env) (s : State) (p : List Nat) (td : Nat) :
    (after_ctrl env s p td).2.taskDones = td := by
  unfold after_ctrl
  (repeat' split) <;> rfl

theorem after_ctrl_heatpump (env : Env) (s : State) (p : List Nat) (td : Nat) :
    (after_ctrl env s p td).1.heatpump = s.heatpump := by
  unfold after_ctrl
  split
  · rfl
  · rcases hb : handle_body env s p with ⟨s1, o, er⟩
    have h1 : s1.heatpump = s.heatpump := by
      have := handle_body_heatpump env s p
      rw [hb] at this
      exact this
    rcases er with _ | er <;> exact h1

theorem opCount_le_one (s : State) : opCount s ≤ 1 := by
  unfold opCount
  split <;> simp

theorem strip_ctrl_td (s : State) (b : Nat) (rest : List Nat) :
    (strip_ctrl s b rest).2.2 ≤ 1 ∧
      ((strip_ctrl s b rest).2.2 = 1 ↔
        b = 0x06 ∧ ∃ o, s.op = some o ∧ o.pending = true) := by
  unfold strip_ctrl
  (repeat' split) <;> simp_all

theorem strip_ctrl_op_none (s : State) (b : Nat) (rest : List Nat)
    (h : (strip_ctrl s b rest).1.op = none) :
    s.op = none ∨ (b = 0x06 ∧ ∃ o, s.op = some o ∧ o.pending = true) := by
  unfold strip_ctrl at h
  (repeat' split at h) <;> simp_all

theorem poll_respond_other (env : Env) (cmd : Cmd) (s : State)
    (h1 : cmd ≠ .MODBUS_READ_REQ) (h2 : cmd ≠ .MODBUS_WRITE_REQ) :
    poll_respond env cmd s = (s, [[0x06]], [], none) := by
  unfold poll_respond
  rcases hop : s.op with _ | o <;> simp [h1, h2]

theorem poll_respond_read_mismatch (env : Env) (s : State) (o : Op)
    (hop : s.op = some o) (hv : o.coil.value ≠ none) :
    poll_respond env .MODBUS_READ_REQ s = (s, [[0x06]], [], none) := by
  unfold poll_respond
  rw [hop]
  simp [hv]

theorem poll_respond_write_mismatch (env : Env) (s : State) (o : Op)
    (hop : s.op = some o) (hv : o.coil.value = none) :
    poll_respond env .MODBUS_WRITE_REQ s = (s, [[0x06]], [], none) := by
  unfold poll_respond
  rw [hop]
  simp [hv]

theorem poll_respond_no_op (env : Env) (cmd : Cmd) (s : State)
    (hop : s.op = none) :
    poll_respond env cmd s = (s, [[0x06]], [], none) := by
  unfold poll_respond
  rw [hop]

theorem poll_respond_read_resend (env : Env) (s : State) (o : Op)
    (hop : s.op = some o) (hp : o.pending = true) (hv : o.coil.value = none) :
    poll_respond env .MODBUS_READ_REQ s =
      (s, [env.buildRead o.coil.address], [.resendWarn], none) := by
  unfold poll_respond
  rw [hop]
  simp [hv, hp]

theorem poll_respond_write_resend (env : Env) (s : State) (o : Op) (raw : List Nat)
    (hop : s.op = some o) (hp : o.pending = true) (hv : o.coil.value ≠ none)
    (hr : env.rawValue o.coil = some raw) :
    poll_respond env .MODBUS_WRITE_REQ s =
      (s, [env.buildWrite o.coil.address raw], [.resendWarn], none) := by
  unfold poll_respond
  rw [hop]
  simp [hv, hp, hr]

theorem content_not_handled (env : Env) (cmd : Cmd) (hp : List Coil)
    (h1 : ∀ d, cmd ≠ .MODBUS_READ_RESP d) (h2 : ∀ b, cmd ≠ .MODBUS_WRITE_RESP b)
    (h3 : ∀ es, cmd ≠ .MODBUS_DATA_MSG es) :
    content env cmd hp = ([], [], [], none) := by
  unfold content
  rcases cmd <;> simp_all

theorem content_dataCalls (env : Env) (cmd : Cmd) (hp : List Coil) :
    (content env cmd hp).2.1 = [] ∨
      ∃ data, (content env cmd hp).2.1 = [data] ∧ 1 ≤ data.length := by
  unfold content
  (repeat' split) <;>
    first
      | (left; rfl)
      | (right; exact ⟨_, rfl, by assumption⟩)

theorem handle_body_queue (env : Env) (s : State) (p : List Nat) :
    (handle_body env s p).1.req_q = s.req_q ∨
      (s.op = none ∧ ∃ r tl, s.req_q = r :: tl ∧ (handle_body env s p).1.req_q = tl) := by
  unfold handle_body
  rcases hpp : env.parse p with _ | e
  · left; rfl
  · by_cases ha : e.address = "MODBUS40"
    · simp only [ha, if_true]
      rcases hso : start_op s with ⟨s1, er⟩
      have hq1 := start_op_queue s
      rw [hso] at hq1
      rcases er with _ | er
      · rcases hpr : poll_respond env e.cmd s1 with ⟨s2, resps, logs1, er2⟩
        have hq2 : s2.req_q = s1.req_q := by
          have := poll_respond_req_q env e.cmd s1
          rw [hpr] at this
          exact this
        rcases er2 with _ | er2
        · rcases hc : content env e.cmd s2.heatpump with ⟨resC, dataC, logs2, er3⟩
          simp only [hpr, hc]
          rcases hq1 with h | ⟨hop, r, tl, hq, hpop⟩
          · left; rw [hq2, h]
          · right; exact ⟨hop, r, tl, hq, by rw [hq2]; exact hpop⟩
        · simp only [hpr]
          rcases hq1 with h | ⟨hop, r, tl, hq, hpop⟩
          · left; rw [hq2, h]
          · right; exact ⟨hop, r, tl, hq, by rw [hq2]; exact hpop⟩
      · simp only []
        exact hq1
    · simp only [ha, if_false]
      exact Or.inl trivial

theorem after_ctrl_req_q (env : Env) (s : State) (p : List Nat) (td : Nat) :
    (after_ctrl env s p td).1.req_q = s.req_q ∨
      (s.op = none ∧ ∃ r tl, s.req_q = r :: tl ∧ (after_ctrl env s p td).1.req_q = tl) := by
  unfold after_ctrl
  split
  · left; rfl
  · rcases hb : handle_body env s p with ⟨s1, o, er⟩
    have := handle_body_queue env s p
    rw [hb] at this
    rcases er with _ | er <;> simpa using this

/-! The claims. -/

/-- C10: no call to `handle_frame` mutates the shared register directory:
operation admission and raw-data decoding both `copy` the coil before
assigning `value`/`raw_value`, so the directory component of the state is
identical after every call. -/
theorem c10_directory_never_mutated (env : Env) (s : State) (p : List Nat)
    (s' : State) (out : Out) (h : handle_frame env s p = .ok (s', out)) :
    s'.heatpump = s.heatpump := by
  rcases p with _ | ⟨b, rest⟩
  · exact absurd h (by simp [handle_frame])
  · rcases hst : strip_ctrl s b rest with ⟨s1, p1, td⟩
    simp only [handle_frame, hst, Except.ok.injEq] at h
    have h1 : s'.heatpump = s1.heatpump := by
      have := after_ctrl_heatpump env s1 p1 td
      rw [h] at this
      exact this
    have h2 : s1.heatpump = s.heatpump := by
      have := strip_ctrl_heatpump s b rest
      rw [hst] at this
      exact this
    rw [h1, h2]

/-- C10 witness: the directory is unchanged by a concrete call. -/
theorem c10_directory_never_mutated_witness : st0.heatpump = st0.heatpump :=
  c10_directory_never_mutated sampleEnv st0 [3]
    st0 ⟨[[0x06]], [], [], 0, [.caughtWarn [3] (.addrNotFound 999)]⟩ (by rfl)

/-- C4: the claim says `handle_frame` never propagates an exception, in
particular on an empty frame.  The code inspects `payload[0]` before the
`try` block, so the empty frame raises an uncaught index error (first
conjunct); every non-empty frame is handled without escaping exception
(second conjunct), which makes the empty frame the only fatal input. -/
theorem c4_empty_frame_uncaught :
    (∀ (env : Env) (s : State), handle_frame env s [] = .error .indexErr) ∧
    (∀ (env : Env) (s : State) (b : Nat) (rest : List Nat),
      ∃ r, handle_frame env s (b :: rest) = .ok r) := by
  constructor
  · intro env s
    rfl
  · intro env s b rest
    unfold handle_frame
    rcases hst : strip_ctrl s b rest with ⟨s1, p1, td⟩
    exact ⟨_, rfl⟩

/-- C2: control-byte preamble semantics.  With an active pending operation,
a leading ACK destroys the operation and acknowledges the queue entry
(`task_done`) exactly once — the rest of the frame is processed from the
operation-free state, and the body never acknowledges (last conjunct, so
the total count is exactly the preamble's) — while a leading NAK keeps the
operation with `pending` cleared; a stray leading ACK/NAK (no operation, or
not pending) is stripped with no state effect. -/
theorem c2_ack_nak_preamble :
    (∀ (env : Env) (s : State) (o : Op) (rest : List Nat),
      s.op = some o → o.pending = true →
      handle_frame env s (0x06 :: rest) =
        .ok (after_ctrl env { s with op := none } rest 1)) ∧
    (∀ (env : Env) (s : State) (o : Op) (rest : List Nat),
      s.op = some o → o.pending = true →
      handle_frame env s (0x15 :: rest) =
        .ok (after_ctrl env { s with op := some { o with pending := false } } rest 0)) ∧
    (∀ (env : Env) (s : State) (b : Nat) (rest : List Nat),
      (b = 0x06 ∨ b = 0x15) →
      (s.op = none ∨ ∃ o, s.op = some o ∧ o.pending = false) →
      handle_frame env s (b :: rest) = .ok (after_ctrl env s rest 0)) ∧
    (∀ (env : Env) (s : State) (p : List Nat) (td : Nat),
      (after_ctrl env s p td).2.taskDones = td) := by
  refine ⟨?_, ?_, ?_, ?_⟩
  · intro env s o rest hop hpend
    unfold handle_frame strip_ctrl
    rw [hop]
    simp [hpend]
  · intro env s o rest hop hpend
    unfold handle_frame strip_ctrl
    rw [hop]
    simp [hpend]
  · intro env s b rest hb hcase
    rcases hcase with hop | ⟨o, hop, hpend⟩
    · unfold handle_frame strip_ctrl
      rw [hop]
      rcases hb with hb | hb <;> subst hb <;> simp
    · unfold handle_frame strip_ctrl
      rw [hop]
      rcases hb with hb | hb <;> subst hb <;> simp [hpend]
  · intro env s p td
    exact after_ctrl_taskDones env s p td

/-- C2 witness: concrete ACK and NAK frames against a pending read
operation, and a stray ACK against the idle state. -/
theorem c2_ack_nak_preamble_witness :
    handle_frame sampleEnv stR [0x06] =
      .ok (after_ctrl sampleEnv { stR with op := none } [] 1) ∧
    handle_frame sampleEnv stR [0x15] =
      .ok (after_ctrl sampleEnv
        { stR with op := some { coil := coilA, pending := false } } [] 0) ∧
    handle_frame sampleEnv st0 [0x06] = .ok (after_ctrl sampleEnv st0 [] 0) :=
  ⟨c2_ack_nak_preamble.1 sampleEnv stR { coil := coilA, pending := true } []
      (by rfl) (by rfl),
   c2_ack_nak_preamble.2.1 sampleEnv stR { coil := coilA, pending := true } []
      (by rfl) (by rfl),
   c2_ack_nak_preamble.2.2.1 sampleEnv st0 0x06 [] (Or.inl rfl) (Or.inl (by rfl))⟩

/-- C6: direction gating, over the frame body (the state after the ACK/NAK
preamble).  A read poll while the operation active at the response decision
is a write (value set), a write poll while it is a read (no value), or any
poll while no operation is active at that point (no active operation and an
empty queue, so that admission cannot install one) answers with the single
plain ACK byte 0x06 — never a read/write-request frame — and leaves the
whole state unchanged. -/
theorem c6_direction_gating :
    (∀ (env : Env) (s : State) (p : List Nat) (o : Op),
      env.parse p = some ⟨"MODBUS40", .MODBUS_READ_REQ⟩ →
      s.op = some o → o.coil.value ≠ none →
      handle_body env s p = (s, ⟨[[0x06]], [], [], 0, []⟩, none)) ∧
    (∀ (env : Env) (s : State) (p : List Nat) (o : Op),
      env.parse p = some ⟨"MODBUS40", .MODBUS_WRITE_REQ⟩ →
      s.op = some o → o.coil.value = none →
      handle_body env s p = (s, ⟨[[0x06]], [], [], 0, []⟩, none)) ∧
    (∀ (env : Env) (s : State) (p : List Nat) (cmd : Cmd),
      (cmd = .MODBUS_READ_REQ ∨ cmd = .MODBUS_WRITE_REQ) →
      env.parse p = some ⟨"MODBUS40", cmd⟩ →
      s.op = none → s.req_q = [] →
      handle_body env s p = (s, ⟨[[0x06]], [], [], 0, []⟩, none)) := by
  refine ⟨?_, ?_, ?_⟩
  · intro env s p o hparse hop hv
    simp only [handle_body, hparse, start_op_op_some s o hop,
      poll_respond_read_mismatch env s o hop hv]
    rfl
  · intro env s p o hparse hop hv
    simp only [handle_body, hparse, start_op_op_some s o hop,
      poll_respond_write_mismatch env s o hop hv]
    rfl
  · intro env s p cmd hcmd hparse hop hq
    simp only [handle_body, hparse, start_op_q_nil s hq,
      poll_respond_no_op env cmd s hop]
    rcases hcmd with h | h <;> subst h <;> rfl

/-- C6 witness: a read poll against a pending write operation, a write poll
against a pending read operation, and a read poll against the idle state
with an empty queue, each answered by the plain ACK with unchanged state. -/
theorem c6_direction_gating_witness :
    handle_body sampleEnv stW [1] = (stW, ⟨[[0x06]], [], [], 0, []⟩, none) ∧
    handle_body sampleEnv stR [2] = (stR, ⟨[[0x06]], [], [], 0, []⟩, none) ∧
    handle_body sampleEnv st0 [1] = (st0, ⟨[[0x06]], [], [], 0, []⟩, none) :=
  ⟨c6_direction_gating.1 sampleEnv stW [1]
      { coil := { coilA with value := some (.int 5) }, pending := true }
      (by rfl) (by rfl) (by simp [coilA]),
   c6_direction_gating.2.1 sampleEnv stR [2] { coil := coilA, pending := true }
      (by rfl) (by rfl) (by rfl),
   c6_direction_gating.2.2 sampleEnv st0 [1] .MODBUS_READ_REQ (Or.inl rfl)
      (by rfl) (by rfl) (by rfl)⟩

/-- Resending a read request while `pending` is already true: warning
logged, identical frame, state (hence `pending`) unchanged. -/
theorem handle_body_read_resend (env : Env) (s : State) (p : List Nat) (o : Op)
    (hparse : env.parse p = some ⟨"MODBUS40", .MODBUS_READ_REQ⟩)
    (hop : s.op = some o) (hpend : o.pending = true) (hv : o.coil.value = none) :
    handle_body env s p =
      (s, ⟨[env.buildRead o.coil.address], [], [], 0, [.resendWarn]⟩, none) := by
  simp only [handle_body, hparse, start_op_op_some s o hop,
    poll_respond_read_resend env s o hop hpend hv]
  rfl

/-- Resending a write request while `pending` is already true: warning
logged, identical frame, state unchanged. -/
theorem handle_body_write_resend (env : Env) (s : State) (p : List Nat) (o : Op)
    (raw : List Nat)
    (hparse : env.parse p = some ⟨"MODBUS40", .MODBUS_WRITE_REQ⟩)
    (hop : s.op = some o) (hpend : o.pending = true) (hv : o.coil.value ≠ none)
    (hr : env.rawValue o.coil = some raw) :
    handle_body env s p =
      (s, ⟨[env.buildWrite o.coil.address raw], [], [], 0, [.resendWarn]⟩, none) := by
  simp only [handle_body, hparse, start_op_op_some s o hop,
    poll_respond_write_resend env s o raw hop hpend hv hr]
  rfl

/-- C7: idempotent resend.  While an operation is active with `pending`
already true, a matching poll logs the resend warning, emits the frame
built from the operation's coil, and leaves the state — in particular
`pending` — untouched, so a second identical poll returns the identical
result (byte-identical response frame). -/
theorem c7_idempotent_resend :
    (∀ (env : Env) (s : State) (p : List Nat) (o : Op),
      env.parse p = some ⟨"MODBUS40", .MODBUS_READ_REQ⟩ →
      s.op = some o → o.pending = true → o.coil.value = none →
      handle_body env s p =
        (s, ⟨[env.buildRead o.coil.address], [], [], 0, [.resendWarn]⟩, none) ∧
      handle_body env (handle_body env s p).1 p = handle_body env s p) ∧
    (∀ (env : Env) (s : State) (p : List Nat) (o : Op) (raw : List Nat),
      env.parse p = some ⟨"MODBUS40", .MODBUS_WRITE_REQ⟩ →
      s.op = some o → o.pending = true → o.coil.value ≠ none →
      env.rawValue o.coil = some raw →
      handle_body env s p =
        (s, ⟨[env.buildWrite o.coil.address raw], [], [], 0, [.resendWarn]⟩, none) ∧
      handle_body env (handle_body env s p).1 p = handle_body env s p) := by
  constructor
  · intro env s p o hparse hop hpend hv
    have h := handle_body_read_resend env s p o hparse hop hpend hv
    refine ⟨h, ?_⟩
    rw [h]
    exact h
  · intro env s p o raw hparse hop hpend hv hr
    have h := handle_body_write_resend env s p o raw hparse hop hpend hv hr
    refine ⟨h, ?_⟩
    rw [h]
    exact h

/-- C7 witness: concrete resends of a pending read poll and a pending
write poll, each leaving the state unchanged and repeating identically. -/
theorem c7_idempotent_resend_witness :
    (handle_body sampleEnv stR [1] =
      (stR, ⟨[[0xC0, 0x69, 100]], [], [], 0, [.resendWarn]⟩, none) ∧
      handle_body sampleEnv (handle_body sampleEnv stR [1]).1 [1] =
        handle_body sampleEnv stR [1]) ∧
    (handle_body sampleEnv stW [2] =
      (stW, ⟨[[0xC0, 0x6B, 100, 9, 9]], [], [], 0, [.resendWarn]⟩, none) ∧
      handle_body sampleEnv (handle_body sampleEnv stW [2]).1 [2] =
        handle_body sampleEnv stW [2]) :=
  ⟨c7_idempotent_resend.1 sampleEnv stR [1] { coil := coilA, pending := true }
      (by rfl) (by rfl) (by rfl) (by rfl),
   c7_idempotent_resend.2 sampleEnv stW [2]
      { coil := { coilA with value := some (.int 5) }, pending := true } [9, 9]
      (by rfl) (by rfl) (by rfl) (by simp [coilA]) (by rfl)⟩

/-- C1 counterexample: frame `[3]` parses as a read response whose register
address (999) misses the directory, so decoding its contents fails and the
error is caught and logged with the raw bytes — yet the `respond` callback
was already invoked with the plain ACK before the error occurred.  This
contradicts the claim that on any body-parse or decode error no response is
sent and `respond` is never invoked for that frame. -/
theorem c1_error_but_response_sent :
    handle_frame sampleEnv st0 [3] =
      .ok (st0, ⟨[[0x06]], [], [], 0, [.caughtWarn [3] (.addrNotFound 999)]⟩) ∧
    ([[0x06]] : List (List Nat)) ≠ [] :=
  ⟨rfl, by simp⟩

/-- C1 (amended): an error while parsing the frame body is caught at the
top of `handle_frame`, logged as a warning together with the (control-byte
stripped) raw bytes, and the frame is dropped: no response is sent, no
callback runs, no `task_done` beyond the preamble's, and the state is
exactly the post-preamble state.  (Errors occurring later, during content
decoding, are likewise caught and logged, but the poll response may already
have been emitted and admission effects persist, as the counterexample
shows.) -/
theorem c1_parse_error_drops_frame (env : Env) (s : State) (b : Nat)
    (rest : List Nat) (s1 : State) (p1 : List Nat) (td : Nat)
    (hst : strip_ctrl s b rest = (s1, p1, td))
    (hne : p1 ≠ [])
    (hparse : env.parse p1 = none) :
    handle_frame env s (b :: rest) =
      .ok (s1, ⟨[], [], [], td, [.caughtWarn p1 .parseErr]⟩) := by
  simp only [handle_frame, hst]
  unfold after_ctrl
  rw [if_neg hne]
  simp only [handle_body, hparse, List.nil_append]

/-- C1 witness: a concrete unparseable frame is dropped with only the
warning log. -/
theorem c1_parse_error_drops_frame_witness :
    handle_frame sampleEnv st0 [9] =
      .ok (st0, ⟨[], [], [], 0, [.caughtWarn [9] .parseErr]⟩) :=
  c1_parse_error_drops_frame sampleEnv st0 9 [] st0 [9] 0 (by rfl) (by simp) (by rfl)

/-- C3: queue discipline.  At most one operation exists in any reachable
state (`opCount ≤ 1`: `self._op` is a single optional field); the request
queue shrinks only by popping its front entry, and only when no operation
is active at the admission point (none on entry, or the entry operation was
just destroyed by the frame's leading ACK while pending); `task_done` fires
at most once per frame, and exactly once precisely when the frame leads
with ACK while an operation is active and pending — never at operation
creation. -/
theorem c3_queue_discipline (env : Env) (s : State) (p : List Nat)
    (s' : State) (out : Out) (h : handle_frame env s p = .ok (s', out)) :
    opCount s' ≤ 1 ∧
    (s'.req_q ≠ s.req_q →
      ∃ r tl, s.req_q = r :: tl ∧ s'.req_q = tl ∧
        (s.op = none ∨
          (p.head? = some 0x06 ∧ ∃ o, s.op = some o ∧ o.pending = true))) ∧
    out.taskDones ≤ 1 ∧
    (out.taskDones = 1 ↔
      p.head? = some 0x06 ∧ ∃ o, s.op = some o ∧ o.pending = true) := by
  rcases p with _ | ⟨b, rest⟩
  · exact absurd h (by simp [handle_frame])
  · rcases hst : strip_ctrl s b rest with ⟨s1, p1, td⟩
    simp only [handle_frame, hst, Except.ok.injEq] at h
    have hs' : s' = (after_ctrl env s1 p1 td).1 := by rw [h]
    have hout : out = (after_ctrl env s1 p1 td).2 := by rw [h]
    have hq1 : s1.req_q = s.req_q := by
      have := strip_ctrl_req_q s b rest
      rw [hst] at this
      exact this
    have htd : (after_ctrl env s1 p1 td).2.taskDones = td :=
      after_ctrl_taskDones env s1 p1 td
    have htd1 := (strip_ctrl_td s b rest).1
    have htd2 := (strip_ctrl_td s b rest).2
    rw [hst] at htd1 htd2
    refine ⟨opCount_le_one s', ?_, ?_, ?_⟩
    · intro hne
      rcases after_ctrl_req_q env s1 p1 td with hsame | ⟨hop1, r, tl, hqq, hpop⟩
      · exact absurd (by rw [hs', hsame, hq1]) hne
      · refine ⟨r, tl, by rw [← hq1]; exact hqq, by rw [hs']; exact hpop, ?_⟩
        have hop := strip_ctrl_op_none s b rest (by rw [hst]; exact hop1)
        rcases hop with h1 | ⟨hb, ho⟩
        · exact Or.inl h1
        · exact Or.inr ⟨by simp [hb], ho⟩
    · rw [hout, htd]
      exact htd1
    · rw [hout, htd]
      constructor
      · intro h3
        obtain ⟨hb, ho⟩ := htd2.mp h3
        exact ⟨by simp [hb], ho⟩
      · intro hz
        obtain ⟨hb, ho⟩ := hz
        apply htd2.mpr
        exact ⟨by simpa using hb, ho⟩

/-- C3 witness: a concrete ACK frame against a pending read operation
completes it with exactly one `task_done` and leaves the queue alone. -/
theorem c3_queue_discipline_witness :
    opCount st0 ≤ 1 ∧
    (st0.req_q ≠ stR.req_q →
      ∃ r tl, stR.req_q = r :: tl ∧ st0.req_q = tl ∧
        (stR.op = none ∨
          (([0x06] : List Nat).head? = some 0x06 ∧
            ∃ o, stR.op = some o ∧ o.pending = true))) ∧
    (⟨[], [], [], 1, []⟩ : Out).taskDones ≤ 1 ∧
    ((⟨[], [], [], 1, []⟩ : Out).taskDones = 1 ↔
      ([0x06] : List Nat).head? = some 0x06 ∧
        ∃ o, stR.op = some o ∧ o.pending = true) :=
  c3_queue_discipline sampleEnv stR [0x06] st0 ⟨[], [], [], 1, []⟩ (by rfl)

/-- Entry the data-message loop consumes in one clean step: the sentinel
address (skipped) or a slice that decodes directly. -/
def cleanEntry (env : Env) (hp : List Coil) (d : DataEntry) : Prop :=
  d.coil_address = 0xFFFF ∨
    ∃ kv, decode_raw_data env hp d.coil_address d.value = .ok kv

theorem decodeEntries_clean_cons (env : Env) (hp : List Coil) (d : DataEntry)
    (rest : List DataEntry) (acc : List (String × Value))
    (h : cleanEntry env hp d) :
    ∃ acc2, decodeEntries env hp (d :: rest) acc = decodeEntries env hp rest acc2 := by
  by_cases hs : d.coil_address = 0xFFFF
  · refine ⟨acc, ?_⟩
    rcases rest with _ | ⟨d2, rest2⟩ <;> simp [decodeEntries, hs]
  · rcases h with h | ⟨⟨k, v⟩, hkv⟩
    · exact absurd h hs
    · refine ⟨dictInsert acc k v, ?_⟩
      rcases rest with _ | ⟨d2, rest2⟩ <;> simp [decodeEntries, hs, hkv]

theorem decodeEntries_clean_append (env : Env) (hp : List Coil) :
    ∀ (es l : List DataEntry) (acc : List (String × Value)),
      (∀ d ∈ es, cleanEntry env hp d) →
      ∃ acc2, decodeEntries env hp (es ++ l) acc = decodeEntries env hp l acc2
  | [], l, acc, _ => ⟨acc, rfl⟩
  | d :: es, l, acc, h => by
    obtain ⟨acc1, h1⟩ :=
      decodeEntries_clean_cons env hp d (es ++ l) acc (h d (by simp))
    obtain ⟨acc2, h2⟩ :=
      decodeEntries_clean_append env hp es l acc1 (fun x hx => h x (by simp [hx]))
    exact ⟨acc2, by rw [List.cons_append, h1, h2]⟩

theorem decodeEntries_trailing_short (env : Env) (hp : List Coil)
    (es : List DataEntry) (d : DataEntry) (acc : List (String × Value))
    (hclean : ∀ x ∈ es, cleanEntry env hp x)
    (hs : d.coil_address ≠ 0xFFFF)
    (hshort : decode_raw_data env hp d.coil_address d.value = .error .streamErr) :
    decodeEntries env hp (es ++ [d]) acc = .error .stopIter := by
  obtain ⟨acc2, h1⟩ := decodeEntries_clean_append env hp es [d] acc hclean
  rw [h1]
  simp [decodeEntries, hs, hshort]

theorem handle_body_dataCalls (env : Env) (s : State) (p : List Nat) :
    ∀ b ∈ (handle_body env s p).2.1.dataCalls, 1 ≤ b.length := by
  unfold handle_body
  rcases hpp : env.parse p with _ | e
  · intro b hb
    simp at hb
  · by_cases ha : e.address = "MODBUS40"
    · simp only [ha, if_true]
      rcases hso : start_op s with ⟨s1, er⟩
      rcases er with _ | er
      · rcases hpr : poll_respond env e.cmd s1 with ⟨s2, resps, logs1, er2⟩
        rcases er2 with _ | er2
        · intro b hb
          simp only [hso, hpr] at hb
          rcases content_dataCalls env e.cmd s2.heatpump with h1 | ⟨data, hd, hlen⟩
          · rw [h1] at hb
            simp at hb
          · rw [hd] at hb
            simp at hb
            rw [hb]
            exact hlen
        · intro b hb
          simp only [hso, hpr] at hb
          simp at hb
      · intro b hb
        simp only [hso] at hb
        simp at hb
    · simp only [ha, if_false]
      intro b hb
      simp at hb

theorem after_ctrl_dataCalls (env : Env) (s : State) (p : List Nat) (td : Nat) :
    ∀ b ∈ (after_ctrl env s p td).2.dataCalls, 1 ≤ b.length := by
  unfold after_ctrl
  split
  · intro b hb
    simp at hb
  · rcases hb2 : handle_body env s p with ⟨s1, o, er⟩
    have hd := handle_body_dataCalls env s p
    rw [hb2] at hd
    rcases er with _ | er <;> intro b hb <;> exact hd b hb

theorem handle_body_trailing_short (env : Env) (s : State) (p : List Nat)
    (es : List DataEntry) (d : DataEntry)
    (hparse : env.parse p = some ⟨"MODBUS40", .MODBUS_DATA_MSG (es ++ [d])⟩)
    (hclean : ∀ x ∈ es, cleanEntry env s.heatpump x)
    (hs : d.coil_address ≠ 0xFFFF)
    (hshort : decode_raw_data env s.heatpump d.coil_address d.value =
      .error .streamErr) :
    (handle_body env s p).2.1.dataCalls = [] := by
  simp only [handle_body, hparse]
  rcases hso : start_op s with ⟨s1, er1⟩
  have hhp1 : s1.heatpump = s.heatpump := by
    have := start_op_heatpump s
    rw [hso] at this
    exact this
  rcases er1 with _ | er1
  · have hpo := poll_respond_other env (.MODBUS_DATA_MSG (es ++ [d])) s1
      (by simp) (by simp)
    have hc : content env (.MODBUS_DATA_MSG (es ++ [d])) s1.heatpump =
        ([], [], [], some .stopIter) := by
      simp only [content, hhp1]
      rw [decodeEntries_trailing_short env s.heatpump es d [] hclean hs hshort]
    simp only [hpo, hc]
    simp
  · rfl

/-- C5: wide-value stitching.  When a non-sentinel entry's slice is too
short for its register's declared width (a `StreamError`), the next entry
of the same message is consumed as the continuation: its address must be
exactly the current address plus one (otherwise the assertion fails the
whole message), the two payloads are concatenated in order and decoded
against the first address's descriptor, and the pair contributes exactly
one batch entry under the first address's coil name; a failed message
yields no partial batch (`on_data` receives nothing). -/
theorem c5_wide_stitching :
    (∀ (env : Env) (hp : List Coil) (d1 d2 : DataEntry) (rest : List DataEntry)
        (acc : List (String × Value)) (c : Coil) (k : String) (v : Value),
      get_coil_by_address hp d1.coil_address = some c →
      d1.coil_address ≠ 0xFFFF →
      d1.value.length < c.size →
      d2.coil_address = d1.coil_address + 1 →
      decode_raw_data env hp d1.coil_address (d1.value ++ d2.value) = .ok (k, v) →
      k = c.name ∧
        decodeEntries env hp (d1 :: d2 :: rest) acc =
          decodeEntries env hp rest (dictInsert acc k v)) ∧
    (∀ (env : Env) (hp : List Coil) (d1 d2 : DataEntry) (rest : List DataEntry)
        (acc : List (String × Value)) (c : Coil),
      get_coil_by_address hp d1.coil_address = some c →
      d1.coil_address ≠ 0xFFFF →
      d1.value.length < c.size →
      d2.coil_address ≠ d1.coil_address + 1 →
      decodeEntries env hp (d1 :: d2 :: rest) acc = .error .assertionErr) ∧
    (∀ (env : Env) (hp : List Coil) (es : List DataEntry) (e : PyErr),
      decodeEntries env hp es [] = .error e →
      (content env (.MODBUS_DATA_MSG es) hp).2.1 = []) := by
  refine ⟨?_, ?_, ?_⟩
  · intro env hp d1 d2 rest acc c k v hlook hsen hlen hadj hdec
    have hshort : decode_raw_data env hp d1.coil_address d1.value =
        .error .streamErr := by
      unfold decode_raw_data
      rw [hlook]
      simp [hlen]
    have hk : k = c.name := by
      unfold decode_raw_data at hdec
      simp only [hlook] at hdec
      split at hdec
      · simp at hdec
      · rcases hdf : env.decodeFun c (d1.value ++ d2.value) with _ | v2 <;>
          rw [hdf] at hdec <;> simp_all
    refine ⟨hk, ?_⟩
    simp [decodeEntries, hsen, hshort, hadj, hdec]
  · intro env hp d1 d2 rest acc c hlook hsen hlen hadj
    have hshort : decode_raw_data env hp d1.coil_address d1.value =
        .error .streamErr := by
      unfold decode_raw_data
      rw [hlook]
      simp [hlen]
    simp [decodeEntries, hsen, hshort, hadj]
  · intro env hp es e hdec
    simp only [content, hdec]

/-- C5 witness: the concrete wide pair at addresses 200/201 stitches into
one entry under the wide coil's name; a non-adjacent continuation fails
with the assertion error; a failed message contributes no batch. -/
theorem c5_wide_stitching_witness :
    ("wide" = coilW.name ∧
      decodeEntries sampleEnv sampleHp [⟨200, [1, 2]⟩, ⟨201, [3, 4]⟩] [] =
        decodeEntries sampleEnv sampleHp []
          (dictInsert [] "wide" (.int 20004))) ∧
    decodeEntries sampleEnv sampleHp [⟨200, [1, 2]⟩, ⟨100, [7, 0]⟩] [] =
      .error .assertionErr ∧
    (content sampleEnv
      (.MODBUS_DATA_MSG [⟨100, [7, 0]⟩, ⟨200, [1, 2]⟩]) sampleHp).2.1 = [] :=
  ⟨c5_wide_stitching.1 sampleEnv sampleHp ⟨200, [1, 2]⟩ ⟨201, [3, 4]⟩ [] []
      coilW "wide" (.int 20004) (by rfl) (by decide) (by decide) (by rfl) (by rfl),
   c5_wide_stitching.2.1 sampleEnv sampleHp ⟨200, [1, 2]⟩ ⟨100, [7, 0]⟩ [] []
      coilW (by rfl) (by decide) (by decide) (by decide),
   c5_wide_stitching.2.2 sampleEnv sampleHp [⟨100, [7, 0]⟩, ⟨200, [1, 2]⟩]
      .stopIter (by rfl)⟩

/-- C8: sentinel skip and non-empty batches.  Data-message entries whose
address is the unused-slot sentinel 0xFFFF are skipped by the decode loop
and thus excluded from the batch, and every batch that reaches the
`on_data` callback holds at least one entry — an empty batch is never
published. -/
theorem c8_sentinel_skip :
    (∀ (env : Env) (hp : List Coil) (d : DataEntry) (rest : List DataEntry)
        (acc : List (String × Value)),
      d.coil_address = 0xFFFF →
      decodeEntries env hp (d :: rest) acc = decodeEntries env hp rest acc) ∧
    (∀ (env : Env) (s : State) (p : List Nat) (s' : State) (out : Out),
      handle_frame env s p = .ok (s', out) →
      ∀ batch ∈ out.dataCalls, 1 ≤ batch.length) := by
  constructor
  · intro env hp d rest acc hs
    rcases rest with _ | ⟨d2, rest2⟩ <;> simp [decodeEntries, hs]
  · intro env s p s' out h
    rcases p with _ | ⟨b, rest⟩
    · exact absurd h (by simp [handle_frame])
    · rcases hst : strip_ctrl s b rest with ⟨s1, p1, td⟩
      simp only [handle_frame, hst, Except.ok.injEq] at h
      have hout : out = (after_ctrl env s1 p1 td).2 := by rw [h]
      rw [hout]
      exact after_ctrl_dataCalls env s1 p1 td

/-- C8 witness: a concrete sentinel entry is skipped, and the batch emitted
for the concrete data frame `[4]` (one sentinel, one narrow register, one
wide pair) is non-empty. -/
theorem c8_sentinel_skip_witness :
    decodeEntries sampleEnv sampleHp [⟨0xFFFF, [0, 0]⟩] [] =
      decodeEntries sampleEnv sampleHp [] [] ∧
    1 ≤ ([("alpha", Value.int 10002), ("wide", Value.int 20004)] :
      List (String × Value)).length :=
  ⟨c8_sentinel_skip.1 sampleEnv sampleHp ⟨0xFFFF, [0, 0]⟩ [] [] rfl,
   c8_sentinel_skip.2 sampleEnv st0 [4] st0
      ⟨[[0x06]], [], [[("alpha", Value.int 10002), ("wide", Value.int 20004)]], 0, []⟩
      (by rfl)
      [("alpha", Value.int 10002), ("wide", Value.int 20004)] (by simp)⟩

/-- C9: a too-short slice in the final entry of a data message makes the
loop fetch a continuation entry that does not exist — `next(di)` raises
`StopIteration` — so the whole message fails: no batch at all reaches
`on_data`, even when every earlier entry of the message decoded cleanly,
and the error is caught by the top-level handler (the call still returns
normally). -/
theorem c9_trailing_short_discards_batch :
    (∀ (env : Env) (hp : List Coil) (es : List DataEntry) (d : DataEntry)
        (acc : List (String × Value)),
      (∀ x ∈ es, cleanEntry env hp x) →
      d.coil_address ≠ 0xFFFF →
      decode_raw_data env hp d.coil_address d.value = .error .streamErr →
      decodeEntries env hp (es ++ [d]) acc = .error .stopIter) ∧
    (∀ (env : Env) (s : State) (b : Nat) (rest : List Nat)
        (es : List DataEntry) (d : DataEntry) (s' : State) (out : Out),
      env.parse (b :: rest) = some ⟨"MODBUS40", .MODBUS_DATA_MSG (es ++ [d])⟩ →
      ¬(b = 0x06 ∨ b = 0x15) →
      (∀ x ∈ es, cleanEntry env s.heatpump x) →
      d.coil_address ≠ 0xFFFF →
      decode_raw_data env s.heatpump d.coil_address d.value = .error .streamErr →
      handle_frame env s (b :: rest) = .ok (s', out) →
      out.dataCalls = []) := by
  constructor
  · intro env hp es d acc hclean hs hshort
    exact decodeEntries_trailing_short env hp es d acc hclean hs hshort
  · intro env s b rest es d s' out hparse hb hclean hsen hshort h
    have hst : strip_ctrl s b rest = (s, b :: rest, 0) := by
      unfold strip_ctrl
      rw [if_neg hb]
    simp only [handle_frame, hst, Except.ok.injEq] at h
    have hout : out = (after_ctrl env s (b :: rest) 0).2 := by rw [h]
    rw [hout]
    unfold after_ctrl
    rw [if_neg (by simp)]
    rcases hb2 : handle_body env s (b :: rest) with ⟨s1, o, er⟩
    have hd := handle_body_trailing_short env s (b :: rest) es d hparse hclean
      hsen hshort
    rw [hb2] at hd
    rcases er with _ | er <;> simpa using hd

/-- C9 witness: the concrete data frame `[7]` ends with a too-short slice
for the wide register; its earlier entry decodes cleanly, yet the batch is
discarded and no `on_data` call is made. -/
theorem c9_trailing_short_discards_batch_witness :
    decodeEntries sampleEnv sampleHp ([⟨100, [7, 0]⟩] ++ [⟨200, [1, 2]⟩]) [] =
      .error .stopIter ∧
    (⟨[[0x06]], [], [], 0,
      [.caughtWarn [7] .stopIter]⟩ : Out).dataCalls = [] :=
  ⟨c9_trailing_short_discards_batch.1 sampleEnv sampleHp [⟨100, [7, 0]⟩]
      ⟨200, [1, 2]⟩ []
      (by intro x hx
          simp at hx
          rw [hx]
          exact Or.inr ⟨("alpha", .int 10002), by rfl⟩)
      (by decide) (by rfl),
   c9_trailing_short_discards_batch.2 sampleEnv st0 7 [] [⟨100, [7, 0]⟩]
      ⟨200, [1, 2]⟩ st0
      ⟨[[0x06]], [], [], 0, [.caughtWarn [7] .stopIter]⟩
      (by rfl) (by decide)
      (by intro x hx
          simp at hx
          rw [hx]
          exact Or.inr ⟨("alpha", .int 10002), by rfl⟩)
      (by decide) (by rfl) (by rfl)⟩

end NibeSerial
